import Mathlib

/-!
Verification development for the `datadog` package's `monitors.go`.

The decoder under study is `NoDataTimeframe.UnmarshalJSON`, which delegates
to Go's `strconv.ParseInt(s, 10, 32)`.  Machine integers are modelled as
`Nat`/`Int` with the explicit 32-bit bounds the Go code checks; Go byte
strings are modelled as Lean `String`s (all inputs of interest are ASCII).
-/

set_option maxHeartbeats 1600000

namespace Datadog

/-- Go `'0' <= c && c <= '9'` (the digit test of `strconv.ParseUint` in base
10); 48 and 57 are the code points of `'0'` and `'9'`. -/
def isDigitChar (c : Char) : Bool := 48 ≤ c.toNat && c.toNat ≤ 57

/-- The two error kinds of `strconv`: `ErrSyntax` and `ErrRange`. -/
inductive ErrKind where
  | malformed
  | outOfRange
deriving DecidableEq

/-- Go `strconv.NumError`: the failing function, the original input string
and the underlying error kind. -/
structure NumError where
  func : String
  num : String
  kind : ErrKind
deriving DecidableEq

/-- Go `maxVal := uint64(1)<<uint(bitSize) - 1` for `bitSize = 32`,
written as its numeral `2 ^ 32 - 1`. -/
def maxValU32 : Nat := 4294967295

/-- Go `cutoff := maxVal/uint64(base) + 1` for base 10: the smallest
accumulator that would overflow when multiplied by 10
(`4294967295 / 10 + 1`). -/
def cutoffU32 : Nat := 429496730

/-- Go `cutoff := uint64(1 << uint(bitSize-1))` in `strconv.ParseInt` for
`bitSize = 32`, written as its numeral `2 ^ 31`. -/
def cutoffI32 : Nat := 2147483648

/-- The digit-accumulation loop of Go `strconv.ParseUint(s, 10, 32)`:
per character, a non-digit (`d := c - '0'` fails the digit test) is a
syntax error, and the two overflow guards (`n >= cutoff` before the
multiply, `n1 > maxVal` after adding the digit) are range errors. -/
def parseUintLoop : List Char → Nat → Except ErrKind Nat
  | [], n => .ok n
  | c :: rest, n =>
    if isDigitChar c then
      if cutoffU32 ≤ n then .error .outOfRange
      else if maxValU32 < n * 10 + (c.toNat - 48) then .error .outOfRange
      else parseUintLoop rest (n * 10 + (c.toNat - 48))
    else .error .malformed

/-- Go `strconv.ParseUint(s, 10, 32)` restricted to what `ParseInt` uses:
the empty string is a syntax error, otherwise run the digit loop from 0. -/
def parseUint32 (cs : List Char) : Except ErrKind Nat :=
  if cs = [] then .error .malformed else parseUintLoop cs 0

/-- The sign handling of Go `strconv.ParseInt`:
`if s[0] == '+' { s = s[1:] } else if s[0] == '-' { neg = true; s = s[1:] }`.
Returns the `neg` flag and the remaining characters. -/
def splitSign : List Char → Bool × List Char
  | [] => (false, [])
  | c :: rest =>
    if c = '+' then (false, rest)
    else if c = '-' then (true, rest)
    else (false, c :: rest)

/-- The tail of Go `strconv.ParseInt` after `ParseUint` returns: a syntax
error from `ParseUint` has its `Func`/`Num` rewritten to `"ParseInt"` and
the full original string `s`; a range error from `ParseUint` leaves
`un = maxVal`, which then trips the signed cutoff checks below and is
reported as a range error on `s` as well, so both error kinds are
propagated with the original string attached.  On success the signed
cutoff checks (`!neg && un >= cutoff`, `neg && un > cutoff`) apply and the
value is negated when `neg` is set. -/
def signResult (s : String) (neg : Bool) (r : Except ErrKind Nat) : Except NumError Int :=
  match r with
  | .error k => .error ⟨"ParseInt", s, k⟩
  | .ok un =>
    if neg = false ∧ cutoffI32 ≤ un then .error ⟨"ParseInt", s, .outOfRange⟩
    else if neg = true ∧ cutoffI32 < un then .error ⟨"ParseInt", s, .outOfRange⟩
    else .ok (if neg then -(un : Int) else (un : Int))

/-- Go `strconv.ParseInt(s, 10, 32)`: empty input is a syntax error,
otherwise strip the sign, run `ParseUint` on the remainder and apply the
signed-range checks.  On success the value fits a 32-bit signed integer,
so Go's `int64`→`int` conversion at the call site is lossless and is
modelled as the identity. -/
def parseInt32 (s : String) : Except NumError Int :=
  if s = "" then .error ⟨"ParseInt", s, .malformed⟩
  else signResult s (splitSign s.data).1 (parseUint32 (splitSign s.data).2)

/-- The success/failure tail of `NoDataTimeframe.UnmarshalJSON`: on a parse
error the error is returned and `*tf` is left untouched; on success the
parsed integer is stored in `*tf`. -/
def unmarshalResult (tf : Int) (r : Except NumError Int) : Int × Option NumError :=
  match r with
  | .error err => (tf, some err)
  | .ok i => (i, none)

/-- Go `func (tf *NoDataTimeframe) UnmarshalJSON(data []byte) error`.
The receiver is passed in as `tf` (its value before the call) and the
result is the pair (value of `*tf` after the call, returned error):
`s := string(data)`; if `s == "false" || s == "null"` set `*tf = 0`;
otherwise `ParseInt(s, 10, 32)`, returning the error (leaving `*tf`
untouched) on failure and storing the parsed value on success. -/
def unmarshalJSON (tf : Int) (data : String) : Int × Option NumError :=
  if data = "false" ∨ data = "null" then (0, none)
  else unmarshalResult tf (parseInt32 data)

/-- Go's JSON encoding of a `NoDataTimeframe` (a defined type over `int`
with no custom marshaler) is the plain base-10 decimal representation
produced by `strconv.AppendInt`.  `digitChar` maps a digit value below ten
to its character. -/
def digitChar (d : Nat) : Char :=
  if d = 0 then '0' else if d = 1 then '1' else if d = 2 then '2'
  else if d = 3 then '3' else if d = 4 then '4' else if d = 5 then '5'
  else if d = 6 then '6' else if d = 7 then '7' else if d = 8 then '8'
  else '9'

/-- Decimal digits of a natural number, most significant first.  The first
argument is structural-recursion fuel; it is always at least the value
being printed, which keeps every recursive call (on `m / 10`) inside the
fuel, so `natDecAux (m) m` computes the exact digit string. -/
def natDecAux : Nat → Nat → List Char
  | 0, m => [digitChar m]
  | fuel + 1, m =>
    if m < 10 then [digitChar m]
    else natDecAux fuel (m / 10) ++ [digitChar (m % 10)]

/-- Decimal digit string of a natural number. -/
def natDec (m : Nat) : List Char := natDecAux m m

/-- Base-10 textual representation of an integer, as Go's
`strconv.FormatInt` (and hence `encoding/json` for integer types)
produces it: a minus sign for negative values, then the decimal digits. -/
def formatInt (n : Int) : String :=
  if n < 0 then String.mk ('-' :: natDec n.natAbs) else String.mk (natDec n.toNat)

/-- Mathematical value of a digit string continued from accumulator `n`
(the ideal, overflow-free counterpart of the `ParseUint` loop). -/
def foldDigits : Nat → List Char → Nat
  | n, [] => n
  | n, c :: rest => foldDigits (n * 10 + (c.toNat - 48)) rest

/-- The spec's accepted integer tokens, stated from its words: an optional
sign (`+` or `-`) followed by a nonempty run of ASCII digits, whose value
lies in the 32-bit signed range; the result is that signed value.  This is
the specification-side counterpart of `parseInt32`, used to state the
refinement between the two. -/
def specTok : List Char → Option Int
  | [] => none
  | c :: rest =>
    if c = '+' then
      if rest ≠ [] ∧ rest.all isDigitChar = true ∧ foldDigits 0 rest < 2 ^ 31
      then some (foldDigits 0 rest) else none
    else if c = '-' then
      if rest ≠ [] ∧ rest.all isDigitChar = true ∧ foldDigits 0 rest ≤ 2 ^ 31
      then some (-(foldDigits 0 rest : Int)) else none
    else
      if (c :: rest).all isDigitChar = true ∧ foldDigits 0 (c :: rest) < 2 ^ 31
      then some (foldDigits 0 (c :: rest)) else none

/-- Spec-side reading of "a parseable base-10 signed integer (32-bit
range)" over the raw token text. -/
def specBase10Int32 (s : String) : Option Int := specTok s.data

/-! Hand-written equation lemmas (proved by `rfl`) for the definitions
above; the proofs below rewrite with these. -/

theorem parseUintLoop_nil (n : Nat) : parseUintLoop [] n = .ok n := rfl

theorem parseUintLoop_cons (c : Char) (rest : List Char) (n : Nat) :
    parseUintLoop (c :: rest) n =
      if isDigitChar c then
        if cutoffU32 ≤ n then .error .outOfRange
        else if maxValU32 < n * 10 + (c.toNat - 48) then .error .outOfRange
        else parseUintLoop rest (n * 10 + (c.toNat - 48))
      else .error .malformed := rfl

theorem parseUint32_def (cs : List Char) :
    parseUint32 cs = if cs = [] then .error .malformed else parseUintLoop cs 0 := rfl

theorem splitSign_nil : splitSign [] = (false, []) := rfl

theorem splitSign_cons (c : Char) (rest : List Char) :
    splitSign (c :: rest) =
      if c = '+' then (false, rest)
      else if c = '-' then (true, rest)
      else (false, c :: rest) := rfl

theorem signResult_error (s : String) (neg : Bool) (k : ErrKind) :
    signResult s neg (.error k) = .error ⟨"ParseInt", s, k⟩ := rfl

theorem signResult_ok (s : String) (neg : Bool) (un : Nat) :
    signResult s neg (.ok un) =
      if neg = false ∧ cutoffI32 ≤ un then .error ⟨"ParseInt", s, .outOfRange⟩
      else if neg = true ∧ cutoffI32 < un then .error ⟨"ParseInt", s, .outOfRange⟩
      else .ok (if neg then -(un : Int) else (un : Int)) := rfl

theorem parseInt32_def (s : String) :
    parseInt32 s =
      if s = "" then .error ⟨"ParseInt", s, .malformed⟩
      else signResult s (splitSign s.data).1 (parseUint32 (splitSign s.data).2) := rfl

theorem unmarshalResult_error (tf : Int) (err : NumError) :
    unmarshalResult tf (.error err) = (tf, some err) := rfl

theorem unmarshalResult_ok (tf i : Int) : unmarshalResult tf (.ok i) = (i, none) := rfl

theorem unmarshalJSON_def (tf : Int) (data : String) :
    unmarshalJSON tf data =
      if data = "false" ∨ data = "null" then (0, none)
      else unmarshalResult tf (parseInt32 data) := rfl

theorem foldDigits_nil (n : Nat) : foldDigits n [] = n := rfl

theorem foldDigits_cons (n : Nat) (c : Char) (rest : List Char) :
    foldDigits n (c :: rest) = foldDigits (n * 10 + (c.toNat - 48)) rest := rfl

theorem natDecAux_zero (m : Nat) : natDecAux 0 m = [digitChar m] := rfl

theorem natDecAux_succ (fuel m : Nat) :
    natDecAux (fuel + 1) m =
      if m < 10 then [digitChar m]
      else natDecAux fuel (m / 10) ++ [digitChar (m % 10)] := rfl

theorem specTok_nil : specTok [] = none := rfl

theorem specTok_cons (c : Char) (rest : List Char) :
    specTok (c :: rest) =
      if c = '+' then
        if rest ≠ [] ∧ rest.all isDigitChar = true ∧ foldDigits 0 rest < 2 ^ 31
        then some ((foldDigits 0 rest : Nat) : Int) else none
      else if c = '-' then
        if rest ≠ [] ∧ rest.all isDigitChar = true ∧ foldDigits 0 rest ≤ 2 ^ 31
        then some (-(foldDigits 0 rest : Int)) else none
      else
        if (c :: rest).all isDigitChar = true ∧ foldDigits 0 (c :: rest) < 2 ^ 31
        then some ((foldDigits 0 (c :: rest) : Nat) : Int) else none := rfl

/-! Arithmetic views of the three `strconv` constants. -/

theorem maxValU32_eq : maxValU32 = 2 ^ 32 - 1 := by norm_num [maxValU32]

theorem cutoffU32_eq : cutoffU32 = 429496730 := rfl

theorem cutoffI32_eq : cutoffI32 = 2 ^ 31 := by norm_num [cutoffI32]

/-! Facts about the `ParseUint` loop. -/

theorem foldDigits_ge (ds : List Char) : ∀ n, n ≤ foldDigits n ds := by
  induction ds with
  | nil => intro n; exact Nat.le_refl n
  | cons c rest ih =>
    intro n
    rw [foldDigits_cons]
    have h1 : n ≤ n * 10 + (c.toNat - 48) := by omega
    exact Nat.le_trans h1 (ih (n * 10 + (c.toNat - 48)))

theorem foldDigits_append (a b : List Char) :
    ∀ n, foldDigits n (a ++ b) = foldDigits (foldDigits n a) b := by
  induction a with
  | nil => intro n; rfl
  | cons c rest ih =>
    intro n
    rw [List.cons_append, foldDigits_cons, foldDigits_cons]
    exact ih (n * 10 + (c.toNat - 48))

theorem parseUintLoop_ok_iff (ds : List Char) : ∀ n m, n ≤ maxValU32 →
    (parseUintLoop ds n = .ok m ↔
      (ds.all isDigitChar = true ∧ foldDigits n ds ≤ maxValU32 ∧ m = foldDigits n ds)) := by
  induction ds with
  | nil =>
    intro n m h
    rw [parseUintLoop_nil, foldDigits_nil]
    constructor
    · intro h2
      injection h2 with h2
      exact ⟨rfl, h, h2.symm⟩
    · rintro ⟨_, _, rfl⟩; rfl
  | cons c rest ih =>
    intro n m h
    rw [parseUintLoop_cons, foldDigits_cons]
    by_cases hc : isDigitChar c
    · rw [if_pos hc]
      by_cases h1 : cutoffU32 ≤ n
      · rw [if_pos h1]
        have h2 := foldDigits_ge rest (n * 10 + (c.toNat - 48))
        have h3 : maxValU32 < foldDigits (n * 10 + (c.toNat - 48)) rest := by
          rw [maxValU32] at *; rw [cutoffU32] at h1; omega
        constructor
        · intro hcontra; cases hcontra
        · rintro ⟨_, h4, _⟩; omega
      · rw [if_neg h1]
        by_cases h2 : maxValU32 < n * 10 + (c.toNat - 48)
        · rw [if_pos h2]
          have h3 := foldDigits_ge rest (n * 10 + (c.toNat - 48))
          constructor
          · intro hcontra; cases hcontra
          · rintro ⟨_, h4, _⟩; omega
        · rw [if_neg h2]
          rw [ih (n * 10 + (c.toNat - 48)) m (by omega)]
          rw [List.all_cons, hc, Bool.true_and]
    · rw [if_neg hc]
      constructor
      · intro hcontra; cases hcontra
      · rintro ⟨hall, _, _⟩
        rw [List.all_cons] at hall
        simp only [Bool.and_eq_true] at hall
        exact absurd hall.1 hc

theorem parseUintLoop_range (ds : List Char) : ∀ n, ds.all isDigitChar = true →
    n ≤ maxValU32 → maxValU32 < foldDigits n ds →
    parseUintLoop ds n = .error .outOfRange := by
  induction ds with
  | nil =>
    intro n _ h1 h2
    rw [foldDigits_nil] at h2
    omega
  | cons c rest ih =>
    intro n hall h1 h2
    rw [List.all_cons] at hall
    simp only [Bool.and_eq_true] at hall
    rw [foldDigits_cons] at h2
    rw [parseUintLoop_cons, if_pos hall.1]
    by_cases hcut : cutoffU32 ≤ n
    · rw [if_pos hcut]
    · rw [if_neg hcut]
      by_cases hmax : maxValU32 < n * 10 + (c.toNat - 48)
      · rw [if_pos hmax]
      · rw [if_neg hmax]
        exact ih (n * 10 + (c.toNat - 48)) hall.2 (by omega) h2

/-! Facts about `parseInt32`. -/

theorem specBase10Int32_def (s : String) : specBase10Int32 s = specTok s.data := rfl

theorem ne_of_data_head (s t : String) (c c' : Char) (cs cs' : List Char)
    (hs : s.data = c :: cs) (ht : t.data = c' :: cs') (h : c ≠ c') : s ≠ t := by
  intro he
  subst he
  rw [hs] at ht
  injection ht with h1 _
  exact h h1

theorem ne_empty_of_data (s : String) (c : Char) (cs : List Char)
    (hs : s.data = c :: cs) : s ≠ "" := by
  intro he
  subst he
  cases hs

theorem data_ne_nil_of_ne_empty (s : String) (h : s ≠ "") : s.data ≠ [] := by
  intro hnil
  exact h (String.ext hnil)

theorem digit_not_sign (c : Char) (h : isDigitChar c = true) :
    c ≠ '+' ∧ c ≠ '-' ∧ c ≠ 'f' ∧ c ≠ 'n' := by
  refine ⟨?_, ?_, ?_, ?_⟩ <;> (rintro rfl; exact absurd h (by decide))

/-- A successful run of `signResult ∘ parseUint32` with the `neg` flag
clear is exactly an all-digit string whose value is below `2 ^ 31`. -/
theorem signResult_false_ok_iff (s : String) (ds : List Char) (hds : ds ≠ []) (v : Int) :
    signResult s false (parseUint32 ds) = .ok v ↔
      (ds.all isDigitChar = true ∧ foldDigits 0 ds < cutoffI32 ∧
        v = (foldDigits 0 ds : Int)) := by
  rw [parseUint32_def, if_neg hds]
  cases hp : parseUintLoop ds 0 with
  | error k =>
    rw [signResult_error]
    constructor
    · intro hcontra; cases hcontra
    · rintro ⟨hall, hlt, _⟩
      have hok := (parseUintLoop_ok_iff ds 0 (foldDigits 0 ds) (by rw [maxValU32]; omega)).mpr
        ⟨hall, by rw [maxValU32_eq, cutoffI32_eq] at *; omega, rfl⟩
      rw [hp] at hok
      cases hok
  | ok un =>
    obtain ⟨hall, hle, hun⟩ :=
      (parseUintLoop_ok_iff ds 0 un (by rw [maxValU32]; omega)).mp hp
    subst hun
    rw [signResult_ok]
    by_cases hbig : cutoffI32 ≤ foldDigits 0 ds
    · rw [if_pos ⟨rfl, hbig⟩]
      constructor
      · intro hcontra; cases hcontra
      · rintro ⟨_, hlt, _⟩; omega
    · rw [if_neg (fun hcontra => hbig hcontra.2)]
      rw [if_neg (fun hcontra => by cases hcontra.1)]
      rw [if_neg Bool.false_ne_true]
      constructor
      · intro hok2
        injection hok2 with hok2
        exact ⟨hall, by omega, hok2.symm⟩
      · rintro ⟨_, _, rfl⟩; rfl

/-- A successful run of `signResult ∘ parseUint32` with the `neg` flag set
is exactly an all-digit string whose value is at most `2 ^ 31`, negated. -/
theorem signResult_true_ok_iff (s : String) (ds : List Char) (hds : ds ≠ []) (v : Int) :
    signResult s true (parseUint32 ds) = .ok v ↔
      (ds.all isDigitChar = true ∧ foldDigits 0 ds ≤ cutoffI32 ∧
        v = -(foldDigits 0 ds : Int)) := by
  rw [parseUint32_def, if_neg hds]
  cases hp : parseUintLoop ds 0 with
  | error k =>
    rw [signResult_error]
    constructor
    · intro hcontra; cases hcontra
    · rintro ⟨hall, hlt, _⟩
      have hok := (parseUintLoop_ok_iff ds 0 (foldDigits 0 ds) (by rw [maxValU32]; omega)).mpr
        ⟨hall, by rw [maxValU32_eq, cutoffI32_eq] at *; omega, rfl⟩
      rw [hp] at hok
      cases hok
  | ok un =>
    obtain ⟨hall, hle, hun⟩ :=
      (parseUintLoop_ok_iff ds 0 un (by rw [maxValU32]; omega)).mp hp
    subst hun
    rw [signResult_ok]
    rw [if_neg (fun hcontra => by cases hcontra.1)]
    by_cases hbig : cutoffI32 < foldDigits 0 ds
    · rw [if_pos ⟨rfl, hbig⟩]
      constructor
      · intro hcontra; cases hcontra
      · rintro ⟨_, hlt, _⟩; omega
    · rw [if_neg (fun hcontra => hbig hcontra.2)]
      rw [if_pos rfl]
      constructor
      · intro hok2
        injection hok2 with hok2
        exact ⟨hall, by omega, hok2.symm⟩
      · rintro ⟨_, _, rfl⟩; rfl

/-- Refinement: the Go `ParseInt(s, 10, 32)` call succeeds with value `v`
exactly when the spec-side reading of "a parseable base-10 signed integer
(32-bit range)" accepts `s` with value `v`. -/
theorem parseInt32_ok_iff (s : String) (v : Int) :
    parseInt32 s = .ok v ↔ specBase10Int32 s = some v := by
  rw [parseInt32_def, specBase10Int32_def]
  by_cases hs : s = ""
  · rw [if_pos hs, hs]
    rw [show ("" : String).data = [] from rfl, specTok_nil]
    constructor
    · intro hcontra; cases hcontra
    · intro hcontra; cases hcontra
  · rw [if_neg hs]
    cases hdata : s.data with
    | nil => exact absurd hdata (data_ne_nil_of_ne_empty s hs)
    | cons c cs =>
      rw [splitSign_cons, specTok_cons]
      by_cases hplus : c = '+'
      · rw [if_pos hplus, if_pos hplus]
        by_cases hcs : cs = []
        · subst hcs
          rw [parseUint32_def, if_pos rfl, signResult_error]
          rw [if_neg (fun hcontra => hcontra.1 rfl)]
          constructor
          · intro hcontra; cases hcontra
          · intro hcontra; cases hcontra
        · rw [signResult_false_ok_iff s cs hcs v]
          rw [cutoffI32_eq]
          constructor
          · rintro ⟨hall, hlt, rfl⟩
            rw [if_pos ⟨hcs, hall, hlt⟩]
          · intro hsome
            by_cases hcond : cs ≠ [] ∧ cs.all isDigitChar = true ∧ foldDigits 0 cs < 2 ^ 31
            · rw [if_pos hcond] at hsome
              injection hsome with hsome
              exact ⟨hcond.2.1, hcond.2.2, hsome.symm⟩
            · rw [if_neg hcond] at hsome
              cases hsome
      · rw [if_neg hplus, if_neg hplus]
        by_cases hminus : c = '-'
        · rw [if_pos hminus, if_pos hminus]
          by_cases hcs : cs = []
          · subst hcs
            rw [parseUint32_def, if_pos rfl, signResult_error]
            rw [if_neg (fun hcontra => hcontra.1 rfl)]
            constructor
            · intro hcontra; cases hcontra
            · intro hcontra; cases hcontra
          · rw [signResult_true_ok_iff s cs hcs v]
            rw [cutoffI32_eq]
            constructor
            · rintro ⟨hall, hlt, rfl⟩
              rw [if_pos ⟨hcs, hall, hlt⟩]
            · intro hsome
              by_cases hcond : cs ≠ [] ∧ cs.all isDigitChar = true ∧ foldDigits 0 cs ≤ 2 ^ 31
              · rw [if_pos hcond] at hsome
                injection hsome with hsome
                exact ⟨hcond.2.1, hcond.2.2, hsome.symm⟩
              · rw [if_neg hcond] at hsome
                cases hsome
        · rw [if_neg hminus, if_neg hminus]
          rw [signResult_false_ok_iff s (c :: cs) (List.cons_ne_nil c cs) v]
          rw [cutoffI32_eq]
          constructor
          · rintro ⟨hall, hlt, rfl⟩
            rw [if_pos ⟨hall, hlt⟩]
          · intro hsome
            by_cases hcond : (c :: cs).all isDigitChar = true ∧ foldDigits 0 (c :: cs) < 2 ^ 31
            · rw [if_pos hcond] at hsome
              injection hsome with hsome
              exact ⟨hcond.1, hcond.2, hsome.symm⟩
            · rw [if_neg hcond] at hsome
              cases hsome

/-- Every error `parseInt32` produces carries the original input string and
the function name `ParseInt`. -/
theorem parseInt32_error_num (s : String) (e : NumError) (h : parseInt32 s = .error e) :
    e.num = s ∧ e.func = "ParseInt" := by
  rw [parseInt32_def] at h
  by_cases hs : s = ""
  · rw [if_pos hs] at h
    injection h with h
    rw [← h]
    exact ⟨rfl, rfl⟩
  · rw [if_neg hs] at h
    cases hp : parseUint32 (splitSign s.data).2 with
    | error k =>
      rw [hp, signResult_error] at h
      injection h with h
      rw [← h]
      exact ⟨rfl, rfl⟩
    | ok un =>
      rw [hp, signResult_ok] at h
      split at h
      · injection h with h
        rw [← h]
        exact ⟨rfl, rfl⟩
      · split at h
        · injection h with h
          rw [← h]
          exact ⟨rfl, rfl⟩
        · cases h

/-! Facts about the decimal printer `natDec` / `formatInt`. -/

theorem digitChar_isDigit (d : Nat) : isDigitChar (digitChar d) = true := by
  unfold digitChar
  repeat' split
  all_goals decide

theorem digitChar_val (d : Nat) (h : d < 10) : (digitChar d).toNat - 48 = d := by
  interval_cases d <;> decide

theorem natDecAux_ne_nil (fuel m : Nat) : natDecAux fuel m ≠ [] := by
  cases fuel with
  | zero => rw [natDecAux_zero]; exact List.cons_ne_nil _ _
  | succ fuel =>
    rw [natDecAux_succ]
    by_cases hm : m < 10
    · rw [if_pos hm]; exact List.cons_ne_nil _ _
    · rw [if_neg hm]
      intro hcontra
      rcases List.append_eq_nil.mp hcontra with ⟨_, h2⟩
      cases h2

theorem natDecAux_all (fuel : Nat) : ∀ m, (natDecAux fuel m).all isDigitChar = true := by
  induction fuel with
  | zero =>
    intro m
    rw [natDecAux_zero, List.all_cons, List.all_nil, digitChar_isDigit]
    rfl
  | succ fuel ih =>
    intro m
    rw [natDecAux_succ]
    by_cases hm : m < 10
    · rw [if_pos hm, List.all_cons, List.all_nil, digitChar_isDigit]; rfl
    · rw [if_neg hm, List.all_append, ih (m / 10), List.all_cons, List.all_nil,
        digitChar_isDigit]
      rfl

theorem natDecAux_fold (fuel : Nat) : ∀ m, m ≤ fuel → foldDigits 0 (natDecAux fuel m) = m := by
  induction fuel with
  | zero =>
    intro m hm
    have hm0 : m = 0 := Nat.le_zero.mp hm
    subst hm0
    rw [natDecAux_zero, foldDigits_cons, foldDigits_nil, digitChar_val 0 (by omega)]
  | succ fuel ih =>
    intro m hm
    rw [natDecAux_succ]
    by_cases h10 : m < 10
    · rw [if_pos h10, foldDigits_cons, foldDigits_nil, digitChar_val m h10]
      omega
    · rw [if_neg h10, foldDigits_append, ih (m / 10) (by omega), foldDigits_cons,
        foldDigits_nil, digitChar_val (m % 10) (by omega)]
      omega

theorem natDec_ne_nil (m : Nat) : natDec m ≠ [] := natDecAux_ne_nil m m

theorem natDec_all (m : Nat) : (natDec m).all isDigitChar = true := natDecAux_all m m

theorem natDec_fold (m : Nat) : foldDigits 0 (natDec m) = m :=
  natDecAux_fold m m (Nat.le_refl m)

theorem natDec_head (m : Nat) :
    ∃ c cs, natDec m = c :: cs ∧ isDigitChar c = true := by
  cases hnd : natDec m with
  | nil => exact absurd hnd (natDec_ne_nil m)
  | cons c cs =>
    refine ⟨c, cs, rfl, ?_⟩
    have hall := natDec_all m
    rw [hnd, List.all_cons] at hall
    simp only [Bool.and_eq_true] at hall
    exact hall.1

theorem formatInt_data_neg (n : Int) (h : n < 0) :
    (formatInt n).data = '-' :: natDec n.natAbs := by
  unfold formatInt
  rw [if_pos h]

theorem formatInt_data_nonneg (n : Int) (h : ¬n < 0) :
    (formatInt n).data = natDec n.toNat := by
  unfold formatInt
  rw [if_neg h]

/-- Core round-trip fact: decoding the Go-encoded form of any integer in
the 32-bit signed range stores exactly that integer and reports no
error. -/
theorem unmarshal_formatInt (tf n : Int) (h1 : -(2 ^ 31) ≤ n) (h2 : n ≤ 2 ^ 31 - 1) :
    unmarshalJSON tf (formatInt n) = (n, none) := by
  rw [unmarshalJSON_def]
  by_cases hneg : n < 0
  · have hdata := formatInt_data_neg n hneg
    have hne : formatInt n ≠ "false" ∧ formatInt n ≠ "null" :=
      ⟨ne_of_data_head _ _ '-' 'f' _ _ hdata rfl (by decide),
       ne_of_data_head _ _ '-' 'n' _ _ hdata rfl (by decide)⟩
    rw [if_neg (fun hor => hor.elim hne.1 hne.2)]
    rw [parseInt32_def, if_neg (ne_empty_of_data _ _ _ hdata), hdata, splitSign_cons]
    rw [if_neg (by decide), if_pos rfl]
    have hv : parseUint32 (natDec n.natAbs) = .ok n.natAbs := by
      rw [parseUint32_def, if_neg (natDec_ne_nil _)]
      refine (parseUintLoop_ok_iff _ 0 n.natAbs (by rw [maxValU32]; omega)).mpr
        ⟨natDec_all _, ?_, (natDec_fold _).symm⟩
      rw [natDec_fold, maxValU32]
      omega
    rw [hv, signResult_ok]
    rw [if_neg (fun hcontra => by cases hcontra.1)]
    rw [if_neg (fun hcontra => by rw [cutoffI32] at hcontra; omega)]
    rw [if_pos rfl, unmarshalResult_ok]
    congr 1
    omega
  · have hdata := formatInt_data_nonneg n hneg
    obtain ⟨c, cs, hnd, hcdig⟩ := natDec_head n.toNat
    rw [hnd] at hdata
    obtain ⟨hcp, hcm, hcf, hcn⟩ := digit_not_sign c hcdig
    have hne : formatInt n ≠ "false" ∧ formatInt n ≠ "null" :=
      ⟨ne_of_data_head _ _ c 'f' _ _ hdata rfl hcf,
       ne_of_data_head _ _ c 'n' _ _ hdata rfl hcn⟩
    rw [if_neg (fun hor => hor.elim hne.1 hne.2)]
    rw [parseInt32_def, if_neg (ne_empty_of_data _ _ _ hdata), hdata, splitSign_cons]
    rw [if_neg hcp, if_neg hcm]
    have hv : parseUint32 (c :: cs) = .ok n.toNat := by
      rw [parseUint32_def, if_neg (List.cons_ne_nil c cs), ← hnd]
      refine (parseUintLoop_ok_iff _ 0 n.toNat (by rw [maxValU32]; omega)).mpr
        ⟨natDec_all _, ?_, (natDec_fold _).symm⟩
      rw [natDec_fold, maxValU32]
      omega
    rw [hv, signResult_ok]
    rw [if_neg (fun hcontra => by rw [cutoffI32] at hcontra; omega)]
    rw [if_neg (fun hcontra => by cases hcontra.1)]
    rw [if_neg Bool.false_ne_true, unmarshalResult_ok]
    congr 1
    omega

/-- A successful `parseInt32` value always lies in the 32-bit signed
range (the loop and cutoff checks enforce it). -/
theorem parseInt32_ok_range (s : String) (v : Int) (h : parseInt32 s = .ok v) :
    -(2 ^ 31) ≤ v ∧ v ≤ 2 ^ 31 - 1 := by
  rw [parseInt32_ok_iff, specBase10Int32_def] at h
  cases hdata : s.data with
  | nil => rw [hdata, specTok_nil] at h; cases h
  | cons c cs =>
    rw [hdata, specTok_cons] at h
    by_cases hp : c = '+'
    · rw [if_pos hp] at h
      by_cases hcond : cs ≠ [] ∧ cs.all isDigitChar = true ∧ foldDigits 0 cs < 2 ^ 31
      · rw [if_pos hcond] at h
        injection h with h
        have := hcond.2.2
        omega
      · rw [if_neg hcond] at h; cases h
    · rw [if_neg hp] at h
      by_cases hm : c = '-'
      · rw [if_pos hm] at h
        by_cases hcond : cs ≠ [] ∧ cs.all isDigitChar = true ∧ foldDigits 0 cs ≤ 2 ^ 31
        · rw [if_pos hcond] at h
          injection h with h
          have := hcond.2.2
          omega
        · rw [if_neg hcond] at h; cases h
      · rw [if_neg hm] at h
        by_cases hcond : (c :: cs).all isDigitChar = true ∧ foldDigits 0 (c :: cs) < 2 ^ 31
        · rw [if_pos hcond] at h
          injection h with h
          have := hcond.2
          omega
        · rw [if_neg hcond] at h; cases h

/-- An all-digit string whose value reaches `2 ^ 31` makes the unsigned
parse-and-check pipeline fail with a range error carrying `s`. -/
theorem signResult_false_range (s : String) (ds : List Char) (hds : ds ≠ [])
    (hall : ds.all isDigitChar = true) (h : cutoffI32 ≤ foldDigits 0 ds) :
    signResult s false (parseUint32 ds) = .error ⟨"ParseInt", s, .outOfRange⟩ := by
  rw [parseUint32_def, if_neg hds]
  by_cases hbig : foldDigits 0 ds ≤ maxValU32
  · have hok := (parseUintLoop_ok_iff ds 0 (foldDigits 0 ds) (by rw [maxValU32]; omega)).mpr
      ⟨hall, hbig, rfl⟩
    rw [hok, signResult_ok, if_pos ⟨rfl, h⟩]
  · rw [parseUintLoop_range ds 0 hall (by rw [maxValU32]; omega) (by omega), signResult_error]

/-- An all-digit string whose value exceeds `2 ^ 31` makes the negated
parse-and-check pipeline fail with a range error carrying `s`. -/
theorem signResult_true_range (s : String) (ds : List Char) (hds : ds ≠ [])
    (hall : ds.all isDigitChar = true) (h : cutoffI32 < foldDigits 0 ds) :
    signResult s true (parseUint32 ds) = .error ⟨"ParseInt", s, .outOfRange⟩ := by
  rw [parseUint32_def, if_neg hds]
  by_cases hbig : foldDigits 0 ds ≤ maxValU32
  · have hok := (parseUintLoop_ok_iff ds 0 (foldDigits 0 ds) (by rw [maxValU32]; omega)).mpr
      ⟨hall, hbig, rfl⟩
    rw [hok, signResult_ok, if_neg (fun hc => by cases hc.1), if_pos ⟨rfl, h⟩]
  · rw [parseUintLoop_range ds 0 hall (by rw [maxValU32]; omega) (by omega), signResult_error]

example : unmarshalJSON 7 "false" = (0, none) := by decide
example : unmarshalJSON 7 "null" = (0, none) := by decide
example : unmarshalJSON 7 "30" = (30, none) := by decide
example : unmarshalJSON 7 "-5" = (-5, none) := by decide
example : unmarshalJSON 7 "+30" = (30, none) := by decide
example : unmarshalJSON 7 "abc" = (7, some ⟨"ParseInt", "abc", .malformed⟩) := by decide
example : unmarshalJSON 7 "1.5" = (7, some ⟨"ParseInt", "1.5", .malformed⟩) := by decide
example : unmarshalJSON 7 "" = (7, some ⟨"ParseInt", "", .malformed⟩) := by decide
example : unmarshalJSON 7 "2147483647" = (2147483647, none) := by decide
example : unmarshalJSON 7 "2147483648" = (7, some ⟨"ParseInt", "2147483648", .outOfRange⟩) := by decide
example : unmarshalJSON 7 "-2147483648" = (-2147483648, none) := by decide
example : unmarshalJSON 7 "-2147483649" = (7, some ⟨"ParseInt", "-2147483649", .outOfRange⟩) := by decide
example : unmarshalJSON 7 "99999999999999999999" = (7, some ⟨"ParseInt", "99999999999999999999", .outOfRange⟩) := by decide
example : formatInt (-5) = "-5" := by decide
example : formatInt 30 = "30" := by decide
example : formatInt 0 = "0" := by decide
example : specBase10Int32 "+30" = some 30 := by decide
example : specBase10Int32 "-2147483648" = some (-2147483648) := by decide
example : specBase10Int32 "2147483648" = none := by decide

/-! Data model of `monitors.go`: the structs mirrored from the remote
API's JSON schema.  Go pointer-typed optional fields become `Option`;
`*json.Number` (a decimal string) becomes `Option String`;
`map[string]int` becomes an association list. -/

/-- Go `ThresholdCount`. -/
structure ThresholdCount where
  ok : Option String
  critical : Option String
  warning : Option String
  criticalRecovery : Option String
  warningRecovery : Option String
deriving DecidableEq

/-- Go `Creator`. -/
structure Creator where
  email : Option String
  handle : Option String
  id : Option Int
  name : Option String
deriving DecidableEq

/-- Go `Options` (the monitor settings dictionary). -/
structure Options where
  noDataTimeframe : Int
  notifyAudit : Option Bool
  notifyNoData : Option Bool
  renotifyInterval : Option Int
  newHostDelay : Option Int
  evaluationDelay : Option Int
  silenced : List (String × Int)
  timeoutH : Option Int
  escalationMessage : Option String
  thresholds : Option ThresholdCount
  includeTags : Option Bool
  requireFullWindow : Option Bool
  locked : Option Bool
deriving DecidableEq

/-- Go `Monitor`. -/
structure Monitor where
  creator : Option Creator
  id : Option Int
  type : Option String
  query : Option String
  name : Option String
  message : Option String
  tags : List String
  options : Option Options
deriving DecidableEq

/-! The `net/url` query machinery used by `GetMonitorsByName` and
`GetMonitorsByTags`.  Characters stand for bytes (the strings of interest
are ASCII). -/

/-- Go `ishex` / `unhex`: value of a hexadecimal digit character. -/
def unhex (c : Char) : Option Nat :=
  if 48 ≤ c.toNat ∧ c.toNat ≤ 57 then some (c.toNat - 48)
  else if 97 ≤ c.toNat ∧ c.toNat ≤ 102 then some (c.toNat - 87)
  else if 65 ≤ c.toNat ∧ c.toNat ≤ 70 then some (c.toNat - 55)
  else none

/-- Go `url.QueryUnescape`: percent-decodes, mapping `+` to space; a `%`
not followed by two hex digits is an `EscapeError` carrying the offending
substring (up to three characters starting at the `%`). -/
def queryUnescapeCore : List Char → Except String (List Char)
  | [] => .ok []
  | '%' :: a :: b :: rest =>
    match unhex a, unhex b with
    | some ha, some hb =>
      match queryUnescapeCore rest with
      | .error e => .error e
      | .ok out => .ok (Char.ofNat (ha * 16 + hb) :: out)
    | _, _ => .error (String.mk ['%', a, b])
  | ['%', a] => .error (String.mk ['%', a])
  | ['%'] => .error "%"
  | '+' :: rest =>
    match queryUnescapeCore rest with
    | .error e => .error e
    | .ok out => .ok (' ' :: out)
  | c :: rest =>
    match queryUnescapeCore rest with
    | .error e => .error e
    | .ok out => .ok (c :: out)

/-- `strings.Index(key, "=")` splitting as `url.parseQuery` performs it:
the part before the first `=` and the part after (empty if absent). -/
def cutEq : List Char → List Char × List Char
  | [] => ([], [])
  | c :: r =>
    if c = '=' then ([], r)
    else
      let p := cutEq r
      (c :: p.1, p.2)

/-- Splitting of the query on the separators `&` and `;`
(`strings.IndexAny(key, "&;")` in `url.parseQuery`). -/
def splitSeps : List Char → List (List Char)
  | [] => [[]]
  | c :: r =>
    if c = '&' ∨ c = ';' then [] :: splitSeps r
    else
      match splitSeps r with
      | [] => [[c]]
      | a :: as => (c :: a) :: as

/-- One iteration of the `url.parseQuery` loop over a `&`/`;`-separated
segment: empty segments are skipped, the key and value are unescaped
(keeping only the first error, as Go's `if err == nil` does), and a
successful pair is appended. -/
def parseQuerySeg (acc : List (String × String) × Option String) (seg : List Char) :
    List (String × String) × Option String :=
  if seg = [] then acc
  else
    match queryUnescapeCore (cutEq seg).1 with
    | .error e => (acc.1, acc.2.orElse (fun _ => some e))
    | .ok k =>
      match queryUnescapeCore (cutEq seg).2 with
      | .error e => (acc.1, acc.2.orElse (fun _ => some e))
      | .ok v => (acc.1 ++ [(String.mk k, String.mk v)], acc.2)

/-- Go `url.ParseQuery`: the parsed key/value pairs (Go's
`url.Values` map is modelled as the association list in insertion order)
and the first unescape error, if any. -/
def parseQuery (s : String) : List (String × String) × Option String :=
  (splitSeps s.data).foldl parseQuerySeg ([], none)

/-- Upper-case hexadecimal digit, as Go's `"0123456789ABCDEF"` table. -/
def hexUpperChar (n : Nat) : Char :=
  if n < 10 then Char.ofNat (48 + n) else Char.ofNat (55 + n)

/-- Whether Go's query escaper leaves the byte as is: alphanumerics and
`-` (45), `.` (46), `_` (95), `~` (126). -/
def shouldKeep (c : Char) : Bool :=
  (65 ≤ c.toNat && c.toNat ≤ 90) || (97 ≤ c.toNat && c.toNat ≤ 122) ||
    (48 ≤ c.toNat && c.toNat ≤ 57) || c.toNat == 45 || c.toNat == 46 ||
    c.toNat == 95 || c.toNat == 126

/-- Go `url.QueryEscape` on one byte: space becomes `+`, unreserved bytes
stay, everything else becomes `%XX`. -/
def queryEscapeChar (c : Char) : List Char :=
  if c = ' ' then ['+']
  else if shouldKeep c then [c]
  else ['%', hexUpperChar (c.toNat / 16 % 16), hexUpperChar (c.toNat % 16)]

/-- Go `url.QueryEscape` over a string. -/
def queryEscapeList : List Char → List Char
  | [] => []
  | c :: r => queryEscapeChar c ++ queryEscapeList r

/-- Go `url.Values.Encode`: keys sorted (stably, so each key's values keep
their insertion order, matching Go's per-key slices), each pair escaped
and joined with `&`. -/
def encodeValues (vs : List (String × String)) : String :=
  String.intercalate "&"
    ((List.insertionSort (fun a b : String × String => a.1 ≤ b.1) vs).map
      (fun kv => String.mk (queryEscapeList kv.1.data) ++ "=" ++
        String.mk (queryEscapeList kv.2.data)))

/-! The client methods.  `doJSONRequest` lives in a different file of the
repository that is not part of this one. -/

/-- The `error` values a monitor method can return: either the transport's
error handed through unchanged (Go's implicit interface upcast is the
identity at runtime, modelled by the `transport` wrapper) or a
`net/url` escape error from `ParseQuery`. -/
inductive GoError (E : Type) where
  | transport (e : E)
  | url (msg : String)
deriving DecidableEq

/-- Modelled from the spec: `doJSONRequest` is the shared HTTP request
helper (authentication, transport, retries) owned by a file excluded from
this one; per the spec it serializes the optional body, performs the verb
and deserializes the response into the out-parameter.  It is therefore
abstracted as one uninterpreted request function per out-parameter shape
(`*Monitor`, `*[]Monitor` via the `reqMonitors` wrapper struct, and `nil`),
each taking the method, the path and the optional body and returning
either a transport error of abstract type `E` or the decoded output. -/
structure Client (E : Type) where
  reqMonitor : String → String → Option Monitor → Except E Monitor
  reqMonitors : String → String → Option Monitor → Except E (List Monitor)
  reqNoOut : String → String → Option Monitor → Except E Unit

/-- The Go pattern `if err := doJSONRequest(...); err != nil { return nil,
err }; return &out, nil` for methods returning a pointer or slice plus an
error. -/
def wrapOut {E A : Type} (r : Except E A) : Option A × Option (GoError E) :=
  match r with
  | .error e => (none, some (.transport e))
  | .ok out => (some out, none)

/-- The Go pattern `return client.doJSONRequest(...)` for methods
returning only an error. -/
def wrapErr {E : Type} (r : Except E Unit) : Option (GoError E) :=
  match r with
  | .error e => some (.transport e)
  | .ok _ => none

variable {E : Type}

/-- Go `Client.CreateMonitor`. -/
def createMonitor (c : Client E) (monitor : Monitor) :
    Option Monitor × Option (GoError E) :=
  wrapOut (c.reqMonitor "POST" "/v1/monitor" (some monitor))

/-- Go `Client.UpdateMonitor`; the Go code dereferences `*monitor.ID`, so
the model requires the `ID` field to be present. -/
def updateMonitor (c : Client E) (monitor : Monitor) (h : monitor.id.isSome = true) :
    Option (GoError E) :=
  wrapErr (c.reqNoOut "PUT" ("/v1/monitor/" ++ formatInt (monitor.id.get h))
    (some monitor))

/-- Go `Client.GetMonitor`. -/
def getMonitor (c : Client E) (id : Int) : Option Monitor × Option (GoError E) :=
  wrapOut (c.reqMonitor "GET" ("/v1/monitor/" ++ formatInt id) none)

/-- The shared tail of `GetMonitorsByName` and `GetMonitorsByTags`: return
the `ParseQuery` error if there is one, otherwise issue the GET with the
re-encoded query. -/
def queryMonitors (c : Client E) (pq : List (String × String) × Option String) :
    Option (List Monitor) × Option (GoError E) :=
  match pq.2 with
  | some e => (none, some (.url e))
  | none => wrapOut (c.reqMonitors "GET" ("/v1/monitor?" ++ encodeValues pq.1) none)

/-- Go `Client.GetMonitorsByName` (`fmt.Sprintf("name=%v", name)` is plain
concatenation for a string argument). -/
def getMonitorsByName (c : Client E) (name : String) :
    Option (List Monitor) × Option (GoError E) :=
  queryMonitors c (parseQuery ("name=" ++ name))

/-- Go `Client.GetMonitorsByTags` (`strings.Join(tags, ",")`). -/
def getMonitorsByTags (c : Client E) (tags : List String) :
    Option (List Monitor) × Option (GoError E) :=
  queryMonitors c (parseQuery ("monitor_tags=" ++ String.intercalate "," tags))

/-- Go `Client.DeleteMonitor`. -/
def deleteMonitor (c : Client E) (id : Int) : Option (GoError E) :=
  wrapErr (c.reqNoOut "DELETE" ("/v1/monitor/" ++ formatInt id) none)

/-- Go `Client.GetMonitors`. -/
def getMonitors (c : Client E) : Option (List Monitor) × Option (GoError E) :=
  wrapOut (c.reqMonitors "GET" "/v1/monitor" none)

/-- Go `Client.MuteMonitors`. -/
def muteMonitors (c : Client E) : Option (GoError E) :=
  wrapErr (c.reqNoOut "POST" "/v1/monitor/mute_all" none)

/-- Go `Client.UnmuteMonitors`. -/
def unmuteMonitors (c : Client E) : Option (GoError E) :=
  wrapErr (c.reqNoOut "POST" "/v1/monitor/unmute_all" none)

/-- Go `Client.MuteMonitor`. -/
def muteMonitor (c : Client E) (id : Int) : Option (GoError E) :=
  wrapErr (c.reqNoOut "POST" ("/v1/monitor/" ++ formatInt id ++ "/mute") none)

/-- Go `Client.UnmuteMonitor`. -/
def unmuteMonitor (c : Client E) (id : Int) : Option (GoError E) :=
  wrapErr (c.reqNoOut "POST" ("/v1/monitor/" ++ formatInt id ++ "/unmute") none)

/-- A monitor with every optional field absent. -/
def emptyMonitor : Monitor := ⟨none, none, none, none, none, none, [], none⟩

/-- A monitor whose `ID` field is set. -/
def monitorWithId : Monitor := ⟨none, some 7, none, none, none, none, [], none⟩

/-- A client whose transport always succeeds (with trivial responses). -/
def alwaysOkClient : Client Unit :=
  ⟨fun _ _ _ => .ok emptyMonitor, fun _ _ _ => .ok [], fun _ _ _ => .ok ()⟩

/-! Equation and inversion lemmas for the wrappers. -/

theorem wrapOut_error {A : Type} (e : E) :
    (wrapOut (.error e) : Option A × Option (GoError E)) = (none, some (.transport e)) := rfl

theorem wrapOut_ok {A : Type} (a : A) :
    (wrapOut (.ok a) : Option A × Option (GoError E)) = (some a, none) := rfl

theorem wrapErr_error (e : E) : wrapErr (.error e) = some (GoError.transport e) := rfl

theorem wrapErr_ok : wrapErr (.ok () : Except E Unit) = none := rfl

theorem queryMonitors_some (c : Client E) (q : List (String × String)) (e : String) :
    queryMonitors c (q, some e) = (none, some (.url e)) := rfl

theorem queryMonitors_none (c : Client E) (q : List (String × String)) :
    queryMonitors c (q, none) =
      wrapOut (c.reqMonitors "GET" ("/v1/monitor?" ++ encodeValues q) none) := rfl

theorem wrapOut_err_iff {A : Type} (r : Except E A) (e : E) :
    (wrapOut r).2 = some (.transport e) ↔ r = .error e := by
  cases r with
  | error e2 =>
    rw [wrapOut_error]
    constructor
    · intro h
      injection h with h
      injection h with h
      rw [h]
    · intro h
      injection h with h
      rw [h]
  | ok a =>
    rw [wrapOut_ok]
    exact iff_of_false (fun h => Option.noConfusion h) (fun h => Except.noConfusion h)

theorem wrapOut_none_iff {A : Type} (r : Except E A) :
    (wrapOut r).1 = none ↔ ((wrapOut r).2).isSome = true := by
  cases r with
  | error e2 => rw [wrapOut_error]; exact iff_of_true rfl rfl
  | ok a =>
    rw [wrapOut_ok]
    exact iff_of_false (fun h => Option.noConfusion h) (fun h => Bool.noConfusion h)

theorem wrapErr_err_iff (r : Except E Unit) (e : E) :
    wrapErr r = some (.transport e) ↔ r = .error e := by
  cases r with
  | error e2 =>
    rw [wrapErr_error]
    constructor
    · intro h
      injection h with h
      injection h with h
      rw [h]
    · intro h
      injection h with h
      rw [h]
  | ok u =>
    cases u
    rw [wrapErr_ok]
    exact iff_of_false (fun h => Option.noConfusion h) (fun h => Except.noConfusion h)

/-! Claim theorems for the `NoDataTimeframe` decoder. -/

/-- C1: decoding succeeds exactly when the raw token is the literal
`false`, the literal `null`, or a parseable base-10 signed integer in the
32-bit range; any other token fails with an error that carries the
original raw text of the token. -/
theorem noDataTimeframe_decode_success_iff (tf : Int) (s : String) :
    ((unmarshalJSON tf s).2 = none ↔
      (s = "false" ∨ s = "null" ∨ (specBase10Int32 s).isSome = true)) ∧
    (∀ e, (unmarshalJSON tf s).2 = some e → e.num = s) := by
  rw [unmarshalJSON_def]
  by_cases hfn : s = "false" ∨ s = "null"
  · rw [if_pos hfn]
    refine ⟨iff_of_true rfl (hfn.elim Or.inl (fun h => Or.inr (Or.inl h))), ?_⟩
    intro e he
    exact Option.noConfusion he
  · rw [if_neg hfn]
    cases hp : parseInt32 s with
    | error err =>
      rw [unmarshalResult_error]
      refine ⟨iff_of_false (fun he => Option.noConfusion he) ?_, ?_⟩
      · rintro (h | h | hsome)
        · exact hfn (Or.inl h)
        · exact hfn (Or.inr h)
        · obtain ⟨v, hv⟩ := Option.isSome_iff_exists.mp hsome
          have hok := (parseInt32_ok_iff s v).mpr hv
          rw [hp] at hok
          cases hok
      · intro e he
        injection he with he
        rw [← he]
        exact (parseInt32_error_num s err hp).1
    | ok i =>
      rw [unmarshalResult_ok]
      refine ⟨iff_of_true rfl ?_, ?_⟩
      · refine Or.inr (Or.inr ?_)
        rw [(parseInt32_ok_iff s i).mp hp]
        rfl
      · intro e he
        exact Option.noConfusion he

/-- Witness for C1 at the concrete malformed token `abc`. -/
theorem noDataTimeframe_decode_success_iff_witness :
    (unmarshalJSON 0 "abc").2 = some ⟨"ParseInt", "abc", ErrKind.malformed⟩ ∧
      NumError.num ⟨"ParseInt", "abc", ErrKind.malformed⟩ = "abc" :=
  ⟨by decide, (noDataTimeframe_decode_success_iff 0 "abc").2 _ (by decide)⟩

/-- C2: the literal tokens `false` and `null` both decode successfully to
the value 0, for every prior value of the receiver. -/
theorem noDataTimeframe_decode_false_null_zero (tf : Int) :
    unmarshalJSON tf "false" = (0, none) ∧ unmarshalJSON tf "null" = (0, none) :=
  ⟨by rw [unmarshalJSON_def, if_pos (Or.inl rfl)],
   by rw [unmarshalJSON_def, if_pos (Or.inr rfl)]⟩

/-- C3: every integer in the 32-bit signed range decodes from its base-10
textual representation back to itself, with no error. -/
theorem noDataTimeframe_decode_int_repr (tf n : Int)
    (h1 : -(2 ^ 31) ≤ n) (h2 : n ≤ 2 ^ 31 - 1) :
    unmarshalJSON tf (formatInt n) = (n, none) :=
  unmarshal_formatInt tf n h1 h2

/-- Witness for C3 at the concrete negative value `-5`. -/
theorem noDataTimeframe_decode_int_repr_witness :
    (-(2 ^ 31) ≤ (-5 : Int) ∧ (-5 : Int) ≤ 2 ^ 31 - 1) ∧
      unmarshalJSON 7 (formatInt (-5)) = (-5, none) :=
  ⟨⟨by norm_num, by norm_num⟩,
   noDataTimeframe_decode_int_repr 7 (-5) (by norm_num) (by norm_num)⟩

/-- C4 counterexample: the five-character token `"30"` (the digits 3 and 0
wrapped in double quotes) does not decode to 30; it fails with a syntax
error, so quoted digit strings are not treated as equivalent to unquoted
ones. -/
theorem noDataTimeframe_quoted_30_fails :
    unmarshalJSON 0 "\"30\"" = (0, some ⟨"ParseInt", "\"30\"", ErrKind.malformed⟩) := by
  decide

/-- C4 amended: for every character sequence, decoding it wrapped in
double quotes fails with a syntax error carrying the quoted text and
leaves the receiver unchanged (the decoder never strips quotes). -/
theorem noDataTimeframe_quoted_digits_error (tf : Int) (ds : List Char) :
    unmarshalJSON tf (String.mk ('"' :: ds ++ ['"'])) =
      (tf, some ⟨"ParseInt", String.mk ('"' :: ds ++ ['"']), ErrKind.malformed⟩) := by
  have hdata : (String.mk ('"' :: ds ++ ['"'])).data = '"' :: (ds ++ ['"']) := rfl
  rw [unmarshalJSON_def]
  rw [if_neg (fun hor => hor.elim
    (fun hh => ne_of_data_head _ _ '"' 'f' _ _ hdata rfl (by decide) hh)
    (fun hh => ne_of_data_head _ _ '"' 'n' _ _ hdata rfl (by decide) hh))]
  rw [parseInt32_def, if_neg (ne_empty_of_data _ _ _ hdata), hdata, splitSign_cons]
  rw [if_neg (by decide), if_neg (by decide)]
  rw [parseUint32_def, if_neg (List.cons_ne_nil _ _), parseUintLoop_cons]
  rw [if_neg (by decide)]
  rw [signResult_error, unmarshalResult_error]

/-- C5 counterexample: the integer literal `2147483648` (equal to
`2 ^ 31`, just above the 32-bit signed range) does not pass through; the
decoder rejects it with a range error, so range validation is enforced. -/
theorem noDataTimeframe_out_of_range_fails :
    unmarshalJSON 0 "2147483648" =
      (0, some ⟨"ParseInt", "2147483648", ErrKind.outOfRange⟩) := by
  decide

/-- C5 amended: the decoder enforces the 32-bit signed range on integer
literals: values inside `[-2^31, 2^31 - 1]` pass through unchanged, while
the textual representation of any value outside that range fails with a
range error carrying the token text and leaves the receiver unchanged. -/
theorem noDataTimeframe_range_enforced (tf n : Int) :
    ((-(2 ^ 31) ≤ n ∧ n ≤ 2 ^ 31 - 1) → unmarshalJSON tf (formatInt n) = (n, none)) ∧
    ((n < -(2 ^ 31) ∨ 2 ^ 31 - 1 < n) →
      unmarshalJSON tf (formatInt n) =
        (tf, some ⟨"ParseInt", formatInt n, ErrKind.outOfRange⟩)) := by
  constructor
  · exact fun h => unmarshal_formatInt tf n h.1 h.2
  · intro hout
    rw [unmarshalJSON_def]
    by_cases hneg : n < 0
    · have hdata := formatInt_data_neg n hneg
      rw [if_neg (fun hor => hor.elim
        (fun hh => ne_of_data_head _ _ '-' 'f' _ _ hdata rfl (by decide) hh)
        (fun hh => ne_of_data_head _ _ '-' 'n' _ _ hdata rfl (by decide) hh))]
      rw [parseInt32_def, if_neg (ne_empty_of_data _ _ _ hdata), hdata, splitSign_cons]
      rw [if_neg (by decide), if_pos rfl]
      have hlt : n < -(2 ^ 31) := by
        rcases hout with h | h
        · exact h
        · omega
      rw [signResult_true_range (formatInt n) (natDec n.natAbs) (natDec_ne_nil _)
        (natDec_all _) (by rw [natDec_fold, cutoffI32]; omega)]
      rw [unmarshalResult_error]
    · have hdata := formatInt_data_nonneg n hneg
      obtain ⟨c, cs, hnd, hcdig⟩ := natDec_head n.toNat
      rw [hnd] at hdata
      obtain ⟨hcp, hcm, hcf, hcn⟩ := digit_not_sign c hcdig
      have hgt : 2 ^ 31 - 1 < n := by
        rcases hout with h | h
        · omega
        · exact h
      rw [if_neg (fun hor => hor.elim
        (fun hh => ne_of_data_head _ _ c 'f' _ _ hdata rfl hcf hh)
        (fun hh => ne_of_data_head _ _ c 'n' _ _ hdata rfl hcn hh))]
      rw [parseInt32_def, if_neg (ne_empty_of_data _ _ _ hdata), hdata, splitSign_cons]
      rw [if_neg hcp, if_neg hcm]
      rw [signResult_false_range (formatInt n) (c :: cs) (List.cons_ne_nil _ _)
        (by rw [← hnd]; exact natDec_all _)
        (by rw [← hnd, natDec_fold, cutoffI32]; omega)]
      rw [unmarshalResult_error]

/-- Witness for C5 at the concrete out-of-range value `2 ^ 31`. -/
theorem noDataTimeframe_range_enforced_witness :
    ((2 ^ 31 - 1 : Int) < 2 ^ 31) ∧
      unmarshalJSON 3 (formatInt (2 ^ 31)) =
        (3, some ⟨"ParseInt", formatInt (2 ^ 31), ErrKind.outOfRange⟩) :=
  ⟨by norm_num, (noDataTimeframe_range_enforced 3 (2 ^ 31)).2 (Or.inr (by norm_num))⟩

/-- C6: round-trip idempotence: any value produced by a successful decode
re-encodes to a plain integer token that decodes back to the same value,
whatever the receiver held before either call. -/
theorem noDataTimeframe_roundtrip (tf tf' v : Int) (s : String)
    (h : unmarshalJSON tf s = (v, none)) :
    unmarshalJSON tf' (formatInt v) = (v, none) := by
  rw [unmarshalJSON_def] at h
  by_cases hfn : s = "false" ∨ s = "null"
  · rw [if_pos hfn] at h
    injection h with h1 _
    rw [← h1]
    exact unmarshal_formatInt tf' 0 (by norm_num) (by norm_num)
  · rw [if_neg hfn] at h
    cases hp : parseInt32 s with
    | error err =>
      rw [hp, unmarshalResult_error] at h
      injection h with _ h2
      exact Option.noConfusion h2
    | ok i =>
      rw [hp, unmarshalResult_ok] at h
      injection h with h1 _
      rw [← h1]
      have hb := parseInt32_ok_range s i hp
      exact unmarshal_formatInt tf' i hb.1 hb.2

/-- Witness for C6 at the concrete token `30`. -/
theorem noDataTimeframe_roundtrip_witness :
    unmarshalJSON 1 "30" = (30, none) ∧ unmarshalJSON 2 (formatInt 30) = (30, none) :=
  ⟨by decide, noDataTimeframe_roundtrip 1 2 30 "30" (by decide)⟩

/-- C7: atomicity on failure: whenever the decoder returns an error, the
receiver's previously stored value is left unchanged. -/
theorem noDataTimeframe_error_preserves_value (tf : Int) (s : String) (e : NumError)
    (h : (unmarshalJSON tf s).2 = some e) : (unmarshalJSON tf s).1 = tf := by
  rw [unmarshalJSON_def] at h ⊢
  by_cases hfn : s = "false" ∨ s = "null"
  · rw [if_pos hfn] at h
    exact Option.noConfusion h
  · rw [if_neg hfn] at h ⊢
    cases hp : parseInt32 s with
    | error err => rw [unmarshalResult_error]
    | ok i =>
      rw [hp, unmarshalResult_ok] at h
      exact Option.noConfusion h

/-- Witness for C7 at the concrete malformed token `abc` with prior
value 5. -/
theorem noDataTimeframe_error_preserves_value_witness :
    (unmarshalJSON 5 "abc").2 = some ⟨"ParseInt", "abc", ErrKind.malformed⟩ ∧
      (unmarshalJSON 5 "abc").1 = 5 :=
  ⟨by decide,
   noDataTimeframe_error_preserves_value 5 "abc" ⟨"ParseInt", "abc", ErrKind.malformed⟩
     (by decide)⟩

/-- C8: the decoder is a pure, deterministic function of the raw token
text: on equal inputs the error outcome is identical regardless of the
receiver's prior value, and on success the stored value is identical as
well. -/
theorem noDataTimeframe_decode_deterministic (tf1 tf2 : Int) (s1 s2 : String)
    (h : s1 = s2) :
    (unmarshalJSON tf1 s1).2 = (unmarshalJSON tf2 s2).2 ∧
      ((unmarshalJSON tf1 s1).2 = none →
        (unmarshalJSON tf1 s1).1 = (unmarshalJSON tf2 s2).1) := by
  subst h
  simp only [unmarshalJSON_def]
  by_cases hfn : s1 = "false" ∨ s1 = "null"
  · rw [if_pos hfn, if_pos hfn]
    exact ⟨rfl, fun _ => rfl⟩
  · rw [if_neg hfn, if_neg hfn]
    cases hp : parseInt32 s1 with
    | error err =>
      rw [unmarshalResult_error, unmarshalResult_error]
      exact ⟨rfl, fun hc => Option.noConfusion hc⟩
    | ok i =>
      rw [unmarshalResult_ok, unmarshalResult_ok]
      exact ⟨rfl, fun _ => rfl⟩

/-- Witness for C8 at the concrete token `30` with two different prior
receiver values. -/
theorem noDataTimeframe_decode_deterministic_witness :
    ("30" : String) = "30" ∧ (unmarshalJSON 1 "30").2 = (unmarshalJSON 2 "30").2 :=
  ⟨rfl, (noDataTimeframe_decode_deterministic 1 2 "30" "30" rfl).1⟩

/-- C10: the decoder tolerates an explicit leading plus sign: prefixing
the digits of any nonnegative integer in the 32-bit signed range with `+`
still decodes to that integer. -/
theorem noDataTimeframe_plus_sign_tolerated (tf : Int) (n : Nat) (h : n < 2 ^ 31) :
    unmarshalJSON tf (String.mk ('+' :: natDec n)) = ((n : Int), none) := by
  have hdata : (String.mk ('+' :: natDec n)).data = '+' :: natDec n := rfl
  rw [unmarshalJSON_def]
  rw [if_neg (fun hor => hor.elim
    (fun hh => ne_of_data_head _ _ '+' 'f' _ _ hdata rfl (by decide) hh)
    (fun hh => ne_of_data_head _ _ '+' 'n' _ _ hdata rfl (by decide) hh))]
  rw [parseInt32_def, if_neg (ne_empty_of_data _ _ _ hdata), hdata, splitSign_cons,
    if_pos rfl]
  have hv : parseUint32 (natDec n) = .ok n := by
    rw [parseUint32_def, if_neg (natDec_ne_nil _)]
    refine (parseUintLoop_ok_iff _ 0 n (by rw [maxValU32]; omega)).mpr
      ⟨natDec_all _, ?_, (natDec_fold _).symm⟩
    rw [natDec_fold, maxValU32]
    omega
  rw [hv, signResult_ok]
  rw [if_neg (fun hc => by have := hc.2; rw [cutoffI32] at this; omega)]
  rw [if_neg (fun hc => by cases hc.1)]
  rw [if_neg Bool.false_ne_true, unmarshalResult_ok]

/-- Witness for C10 at the concrete token `+30`. -/
theorem noDataTimeframe_plus_sign_tolerated_witness :
    (30 : Nat) < 2 ^ 31 ∧
      unmarshalJSON 4 (String.mk ('+' :: natDec 30)) = ((30 : Int), none) :=
  ⟨by norm_num, noDataTimeframe_plus_sign_tolerated 4 30 (by norm_num)⟩

/-! Claim theorems for the monitor client methods (C9). -/

/-- C9 counterexample: with a transport that always succeeds,
`GetMonitorsByName` on the name `%zz` still returns a nil slice and a
non-nil error — and that error is a `net/url` escape error, not one
produced by the transport — because `url.ParseQuery("name=%zz")` fails
before the transport is ever invoked.  So a nil result does not occur
exactly when the transport errors, and not every returned error comes from
the transport. -/
theorem getMonitorsByName_error_without_transport :
    getMonitorsByName alwaysOkClient "%zz" = (none, some (GoError.url "%zz")) := by
  rfl

/-- C9 amended: every monitor client method propagates the transport's
error unchanged with no retry or recovery, and the pointer/slice-returning
methods return a nil result exactly when they return an error; for
`GetMonitorsByName` and `GetMonitorsByTags` the returned error may instead
be the `url.ParseQuery` escape error, in which case the transport is never
consulted and a nil slice is returned with that error. -/
theorem monitor_methods_error_propagation (c : Client E) (m : Monitor)
    (hid : m.id.isSome = true) (idv : Int) (nm : String) (tags : List String) :
    (∀ e, (createMonitor c m).2 = some (.transport e) ↔
      c.reqMonitor "POST" "/v1/monitor" (some m) = .error e) ∧
    ((createMonitor c m).1 = none ↔ ((createMonitor c m).2).isSome = true) ∧
    (∀ e, updateMonitor c m hid = some (.transport e) ↔
      c.reqNoOut "PUT" ("/v1/monitor/" ++ formatInt (m.id.get hid)) (some m) = .error e) ∧
    (∀ e, (getMonitor c idv).2 = some (.transport e) ↔
      c.reqMonitor "GET" ("/v1/monitor/" ++ formatInt idv) none = .error e) ∧
    ((getMonitor c idv).1 = none ↔ ((getMonitor c idv).2).isSome = true) ∧
    (∀ e, (getMonitors c).2 = some (.transport e) ↔
      c.reqMonitors "GET" "/v1/monitor" none = .error e) ∧
    ((getMonitors c).1 = none ↔ ((getMonitors c).2).isSome = true) ∧
    ((parseQuery ("name=" ++ nm)).2 = none →
      ∀ e, (getMonitorsByName c nm).2 = some (.transport e) ↔
        c.reqMonitors "GET"
          ("/v1/monitor?" ++ encodeValues (parseQuery ("name=" ++ nm)).1) none =
          .error e) ∧
    (∀ e, (parseQuery ("name=" ++ nm)).2 = some e →
      getMonitorsByName c nm = (none, some (.url e))) ∧
    ((getMonitorsByName c nm).1 = none ↔ ((getMonitorsByName c nm).2).isSome = true) ∧
    ((parseQuery ("monitor_tags=" ++ String.intercalate "," tags)).2 = none →
      ∀ e, (getMonitorsByTags c tags).2 = some (.transport e) ↔
        c.reqMonitors "GET"
          ("/v1/monitor?" ++
            encodeValues (parseQuery ("monitor_tags=" ++ String.intercalate "," tags)).1)
          none = .error e) ∧
    (∀ e, (parseQuery ("monitor_tags=" ++ String.intercalate "," tags)).2 = some e →
      getMonitorsByTags c tags = (none, some (.url e))) ∧
    ((getMonitorsByTags c tags).1 = none ↔ ((getMonitorsByTags c tags).2).isSome = true) ∧
    (∀ e, deleteMonitor c idv = some (.transport e) ↔
      c.reqNoOut "DELETE" ("/v1/monitor/" ++ formatInt idv) none = .error e) ∧
    (∀ e, muteMonitors c = some (.transport e) ↔
      c.reqNoOut "POST" "/v1/monitor/mute_all" none = .error e) ∧
    (∀ e, unmuteMonitors c = some (.transport e) ↔
      c.reqNoOut "POST" "/v1/monitor/unmute_all" none = .error e) ∧
    (∀ e, muteMonitor c idv = some (.transport e) ↔
      c.reqNoOut "POST" ("/v1/monitor/" ++ formatInt idv ++ "/mute") none = .error e) ∧
    (∀ e, unmuteMonitor c idv = some (.transport e) ↔
      c.reqNoOut "POST" ("/v1/monitor/" ++ formatInt idv ++ "/unmute") none = .error e) := by
  refine ⟨fun e => wrapOut_err_iff _ e, wrapOut_none_iff _,
    fun e => wrapErr_err_iff _ e, fun e => wrapOut_err_iff _ e, wrapOut_none_iff _,
    fun e => wrapOut_err_iff _ e, wrapOut_none_iff _, ?_, ?_, ?_, ?_, ?_, ?_,
    fun e => wrapErr_err_iff _ e, fun e => wrapErr_err_iff _ e,
    fun e => wrapErr_err_iff _ e, fun e => wrapErr_err_iff _ e,
    fun e => wrapErr_err_iff _ e⟩
  · intro hnone e
    show (queryMonitors c (parseQuery ("name=" ++ nm))).2 = _ ↔ _
    cases hpq : parseQuery ("name=" ++ nm) with
    | mk q2 eo =>
      rw [hpq] at hnone
      cases eo with
      | some e2 => exact Option.noConfusion (show (some e2 : Option String) = none from hnone)
      | none =>
        rw [queryMonitors_none]
        exact wrapOut_err_iff _ e
  · intro e hpe
    show queryMonitors c (parseQuery ("name=" ++ nm)) = _
    cases hpq : parseQuery ("name=" ++ nm) with
    | mk q2 eo =>
      rw [hpq] at hpe
      cases eo with
      | none => exact Option.noConfusion (show (none : Option String) = some e from hpe)
      | some e2 =>
        rw [queryMonitors_some]
        have hpe2 : some e2 = some e := hpe
        injection hpe2 with hpe2
        rw [hpe2]
  · show (queryMonitors c (parseQuery ("name=" ++ nm))).1 = none ↔
      ((queryMonitors c (parseQuery ("name=" ++ nm))).2).isSome = true
    cases hpq : parseQuery ("name=" ++ nm) with
    | mk q2 eo =>
      cases eo with
      | some e2 => rw [queryMonitors_some]; exact iff_of_true rfl rfl
      | none => rw [queryMonitors_none]; exact wrapOut_none_iff _
  · intro hnone e
    show (queryMonitors c (parseQuery ("monitor_tags=" ++ String.intercalate "," tags))).2
      = _ ↔ _
    cases hpq : parseQuery ("monitor_tags=" ++ String.intercalate "," tags) with
    | mk q2 eo =>
      rw [hpq] at hnone
      cases eo with
      | some e2 => exact Option.noConfusion (show (some e2 : Option String) = none from hnone)
      | none =>
        rw [queryMonitors_none]
        exact wrapOut_err_iff _ e
  · intro e hpe
    show queryMonitors c (parseQuery ("monitor_tags=" ++ String.intercalate "," tags)) = _
    cases hpq : parseQuery ("monitor_tags=" ++ String.intercalate "," tags) with
    | mk q2 eo =>
      rw [hpq] at hpe
      cases eo with
      | none => exact Option.noConfusion (show (none : Option String) = some e from hpe)
      | some e2 =>
        rw [queryMonitors_some]
        have hpe2 : some e2 = some e := hpe
        injection hpe2 with hpe2
        rw [hpe2]
  · show (queryMonitors c (parseQuery ("monitor_tags=" ++ String.intercalate "," tags))).1
      = none ↔
      ((queryMonitors c
        (parseQuery ("monitor_tags=" ++ String.intercalate "," tags))).2).isSome = true
    cases hpq : parseQuery ("monitor_tags=" ++ String.intercalate "," tags) with
    | mk q2 eo =>
      cases eo with
      | some e2 => rw [queryMonitors_some]; exact iff_of_true rfl rfl
      | none => rw [queryMonitors_none]; exact wrapOut_none_iff _

/-- Witness for C9 at a concrete client, monitor and arguments. -/
theorem monitor_methods_error_propagation_witness :
    monitorWithId.id.isSome = true ∧
      ((createMonitor alwaysOkClient monitorWithId).1 = none ↔
        ((createMonitor alwaysOkClient monitorWithId).2).isSome = true) :=
  ⟨by decide,
   (monitor_methods_error_propagation alwaysOkClient monitorWithId (by decide)
     0 "x" []).2.1⟩

end Datadog
